import Mathlib

/-!
Verification development for QSDsan's `Process` class (`qsdsan/_process.py`).

The Python class stores a dense stoichiometric coefficient vector (a numpy
`ndarray` of floats in the numeric case, or a Python `list` of sympy
expressions in the partially symbolic case), a reference to an ordered
component catalog, a reference-component name, a tuple of conserved
quantities, a parameter dictionary, and a sympy rate expression.

Numeric coefficients are modelled as IEEE-style extended values over ℚ
(`PyFloat`): numpy float division by zero does not raise, it yields
`inf`/`-inf`/`nan` (we do not model signed zero or rounding, which no
checked property depends on).  Sympy expressions are modelled by the
syntax tree `SymExpr`, where `num` stands for sympy's exact
`Integer`/`Rational` numbers and smart constructors reproduce the
automatic evaluations sympy performs on the operations the class uses
(negation, absolute value, division, scalar multiplication).

Fallible Python code is embedded as `Except PyErr`; each `PyErr`
constructor names the exception class the interpreter would raise.
-/

/-- Numeric (numpy float) value: a finite rational, or one of the
IEEE special values produced by division by zero. -/
inductive PyFloat : Type where
  | fin (q : ℚ)
  | inf
  | ninf
  | nan
deriving DecidableEq, Repr

/-- Unary minus on a numpy float. -/
def PyFloat.neg : PyFloat → PyFloat
  | .fin q => .fin (-q)
  | .inf => .ninf
  | .ninf => .inf
  | .nan => .nan

/-- Python `abs` on a numpy float. -/
def PyFloat.abs : PyFloat → PyFloat
  | .fin q => .fin |q|
  | .inf => .inf
  | .ninf => .inf
  | .nan => .nan

/-- Numpy float division: division by zero yields `inf`/`-inf`/`nan`
(with a warning, not an exception). -/
def PyFloat.div (a b : PyFloat) : PyFloat :=
  match a, b with
  | .nan, _ => .nan
  | _, .nan => .nan
  | .fin x, .fin y =>
      if y = 0 then (if 0 < x then .inf else if x < 0 then .ninf else .nan)
      else .fin (x / y)
  | .inf, .fin y => if y < 0 then .ninf else .inf
  | .ninf, .fin y => if y < 0 then .inf else .ninf
  | .fin _, .inf => .fin 0
  | .fin _, .ninf => .fin 0
  | .inf, .inf => .nan
  | .inf, .ninf => .nan
  | .ninf, .inf => .nan
  | .ninf, .ninf => .nan

/-- Numpy float addition (used only inside the conservation dot product). -/
def PyFloat.add (a b : PyFloat) : PyFloat :=
  match a, b with
  | .nan, _ => .nan
  | _, .nan => .nan
  | .fin x, .fin y => .fin (x + y)
  | .inf, .ninf => .nan
  | .ninf, .inf => .nan
  | .inf, _ => .inf
  | _, .inf => .inf
  | .ninf, _ => .ninf
  | _, .ninf => .ninf

/-- Multiplication of a plain (conversion-factor) rational by a numpy float. -/
def qMulPy (q : ℚ) (x : PyFloat) : PyFloat :=
  match x with
  | .fin a => .fin (q * a)
  | .inf => if 0 < q then .inf else if q < 0 then .ninf else .nan
  | .ninf => if 0 < q then .ninf else if q < 0 then .inf else .nan
  | .nan => .nan

/-- Sympy expression syntax. `num` is sympy's exact `Integer`/`Rational`;
`soo`, `snoo`, `szoo`, `snan` are sympy's `oo`, `-oo`, `zoo`, `nan`.
`neg e` stands for the product `Mul(-1, e)` on heads where sympy keeps it
unevaluated; `div`/`sAbs`/`mul`/`add`/`pow` are likewise unevaluated nodes. -/
inductive SymExpr : Type where
  | num (q : ℚ)
  | sym (name : String)
  | add (a b : SymExpr)
  | mul (a b : SymExpr)
  | pow (a b : SymExpr)
  | neg (a : SymExpr)
  | sAbs (a : SymExpr)
  | div (a b : SymExpr)
  | soo
  | snoo
  | szoo
  | snan
deriving DecidableEq, Repr

/-- Sympy unary minus: `-e` auto-evaluates on numbers, double negation and
the special values; on other heads it stays as `Mul(-1, e)`. -/
def sneg : SymExpr → SymExpr
  | .num q => .num (-q)
  | .neg e => e
  | .soo => .snoo
  | .snoo => .soo
  | .szoo => .szoo
  | .snan => .snan
  | e => .neg e

/-- Sympy `Abs`: auto-evaluates on numbers, the special values and
negation; stays symbolic otherwise. -/
def sAbsE : SymExpr → SymExpr
  | .num q => .num |q|
  | .soo => .soo
  | .snoo => .soo
  | .szoo => .soo
  | .snan => .snan
  | .neg e => sAbsE e
  | e => .sAbs e

/-- Sympy division `a / b` for the shapes the class produces: division by
an exact number auto-evaluates (`x / 1 = x`, number/number folds, division
by zero gives `zoo`/`nan`); division by a symbolic factor stays unevaluated. -/
def sdiv (a b : SymExpr) : SymExpr :=
  match b with
  | .num q =>
      if q = 0 then (match a with
        | .num p => if p = 0 then .snan else .szoo
        | _ => .mul .szoo a)
      else if q = 1 then a
      else (match a with
        | .num p => .num (p / q)
        | _ => .div a (.num q))
  | .snan => .snan
  | _ => .div a b

/-- Sympy product `e * f` of the rate expression with a symbolic
normalization factor (`list` branch): exact numbers 0/1 and `nan`
auto-evaluate, other factors are kept with the coefficient first, which is
sympy's canonical argument order. -/
def smulE (e f : SymExpr) : SymExpr :=
  match e, f with
  | .snan, _ => .snan
  | _, .snan => .snan
  | _, .num q => if q = 1 then e else if q = 0 then .num 0 else .mul (.num q) e
  | _, _ => .mul f e

/-- Conversion of a numpy float scalar to the sympy object it sympifies to. -/
def pyToSym : PyFloat → SymExpr
  | .fin q => .num q
  | .inf => .soo
  | .ninf => .snoo
  | .nan => .snan

/-- Sympy product of the rate expression with a numpy float factor
(`ndarray` branch).  A float factor is kept as an explicit coefficient
(sympy does not cancel `Float(1.0)`); `nan` absorbs the product. -/
def smulPy (e : SymExpr) (f : PyFloat) : SymExpr :=
  match f, e with
  | .nan, _ => .snan
  | _, .snan => .snan
  | .fin q, _ => .mul (.num q) e
  | .inf, _ => .mul .soo e
  | .ninf, _ => .mul .snoo e

/-- Dense stoichiometry storage: a numpy `ndarray` of floats in the fully
numeric case, or a Python `list` of sympy expressions in the (partially)
symbolic case — exactly the two `isinstance` cases the class branches on. -/
inductive Stoich : Type where
  | arr (v : List PyFloat)
  | lst (v : List SymExpr)
deriving DecidableEq, Repr

/-- Python exceptions raised by the embedded code paths.  The two
`runtime` constructors are the `RuntimeError`s of `check_conservation`;
`runtimeUnconserved` carries the (material, residual) pairs the message
is formatted from. -/
inductive PyErr : Type where
  | attributeError (name : String)
  | keyError (name : String)
  | indexError
  | typeError (msg : String)
  | syntaxError (msg : String)
  | runtimeNonNumeric
  | runtimeUnconserved (pairs : List (String × PyFloat))
deriving DecidableEq, Repr

/-- Python sequence indexing `l[i]`, raising `IndexError` out of range. -/
def listAt {α : Type} (l : List α) (i : Nat) : Except PyErr α :=
  match l[i]? with
  | some x => Except.ok x
  | none => Except.error PyErr.indexError

/-- Python dict insertion `d[k] = v` on an insertion-ordered dict:
an existing key keeps its position and gets the new value, a new key is
appended. -/
def dictInsert {α : Type} (d : List (String × α)) (k : String) (v : α) :
    List (String × α) :=
  if d.any (fun kv => kv.1 == k) then
    d.map (fun kv => if kv.1 == k then (k, v) else kv)
  else d ++ [(k, v)]

/-- Component catalog (external thermosteam collaborator): ordered species
IDs plus the `i_<quantity>` conversion-factor rows it exposes as
attributes, modelled as a finite attribute table. -/
structure Components : Type where
  IDs : List String
  iRows : List (String × List ℚ)
deriving DecidableEq, Repr

/-- Dictionary lookup `cmps._index[name]`: position of a species ID. -/
def Components.index (c : Components) (name : String) : Option Nat :=
  c.IDs.findIdx? (· = name)

/-- Attribute access `getattr(cmps, 'i_' + q)`: the conversion-factor row
of quantity `q`, `AttributeError` when the catalog has no such row. -/
def Components.iFactor (c : Components) (q : String) : Except PyErr (List ℚ) :=
  match List.lookup q c.iRows with
  | some r => Except.ok r
  | none => Except.error (PyErr.attributeError ("i_" ++ q))

/-- State of a `Process` instance: exactly the instance attributes
`__init__` and the property setters assign. -/
structure Process : Type where
  _stoichiometry : Stoich
  _components : Components
  _ref_component : String
  _conserved_for : List String
  _parameters : List (String × SymExpr)
  _rate_equation : SymExpr
deriving DecidableEq, Repr

/-- Instance attribute names a `Process` ever has: `__init__` assigns
these six and no method assigns any other (in particular nothing ever
assigns `_conservation_for`). -/
def processInstanceAttrs : List String :=
  ["_stoichiometry", "_components", "_ref_component", "_conserved_for",
   "_parameters", "_rate_equation"]

/-- Python attribute resolution of `self._conservation_for` (read by
`get_conversion_factors`): the attribute is never assigned, so the access
raises `AttributeError`; were it present it would hold the conserved
quantities. -/
def conservation_for_attr (p : Process) : Except PyErr (List String) :=
  if "_conservation_for" ∈ processInstanceAttrs then Except.ok p._conserved_for
  else Except.error (PyErr.attributeError "_conservation_for")

/-- Embedding of `Process.get_conversion_factors(as_matrix)`: reads
`self._conservation_for` (which raises `AttributeError`, see
`conservation_for_attr`); the intended body stacks one catalog row per
conserved quantity and returns `None` for an empty tuple.  `as_matrix`
only changes the container type (sympy `Matrix` vs numpy array) so both
branches carry the same rows here. -/
def get_conversion_factors (p : Process) (as_matrix : Bool) :
    Except PyErr (Option (List (List ℚ))) := do
  let cf ← conservation_for_attr p
  if cf.isEmpty then Except.ok none
  else do
    let rows ← cf.mapM p._components.iFactor
    if as_matrix then Except.ok (some rows) else Except.ok (some rows)

/-- Dot product of a conversion-factor row with the stoichiometry vector
(`ic @ v` row-wise). -/
def dotPy (row : List ℚ) (v : List PyFloat) : PyFloat :=
  ((row.zip v).map (fun rv => qMulPy rv.1 rv.2)).foldl PyFloat.add (PyFloat.fin 0)

/-- Numpy `isclose(x, 0, atol=tol)`: absolute comparison `|x| ≤ atol`
(the `rtol` term vanishes against 0); `inf`/`nan` are never close. -/
def npIsCloseZero (x : PyFloat) (atol : ℚ) : Bool :=
  match x with
  | .fin q => decide (|q| ≤ atol)
  | _ => false

/-- Embedding of `Process.check_conservation(tol)`: on an `ndarray`
stoichiometry it first calls `get_conversion_factors` (which raises
`AttributeError`); the remainder of that branch computes `ic @ v`, tests
closeness to zero, and raises `RuntimeError` with every unconserved
(material, residual) pair; a non-`ndarray` stoichiometry raises the
`RuntimeError` about non-numerical coefficients. -/
def check_conservation (p : Process) (tol : ℚ) : Except PyErr Unit :=
  match p._stoichiometry with
  | .arr v => do
      let ic ← get_conversion_factors p false
      match ic with
      | none => Except.error (PyErr.typeError "unsupported operand type: NoneType @ ndarray")
      | some rows =>
          let icv := rows.map (fun row => dotPy row v)
          let conserved := icv.map (fun x => npIsCloseZero x tol)
          if conserved.all (· = true) then Except.ok ()
          else Except.error (PyErr.runtimeUnconserved
            (((p._conserved_for.zip icv).zip conserved).filterMap
              (fun pc => if pc.2 then none else some pc.1)))
  | .lst _ => Except.error PyErr.runtimeNonNumeric

/-- Embedding of `Process.reverse()`: negates every coefficient
(element-wise in the `ndarray` case, by list comprehension in the `list`
case) and negates the rate expression. -/
def Process.reverse (p : Process) : Process :=
  let st :=
    match p._stoichiometry with
    | .arr v => Stoich.arr (v.map PyFloat.neg)
    | .lst v => Stoich.lst (v.map sneg)
  { p with _stoichiometry := st, _rate_equation := sneg p._rate_equation }

/-- Embedding of `Process._normalize_stoichiometry(new_ref)`: divides every
coefficient by the absolute value of the coefficient at the reference
species' catalog index (`KeyError` for an unknown species). -/
def _normalize_stoichiometry (p : Process) (new_ref : String) :
    Except PyErr Process :=
  match p._components.index new_ref with
  | none => Except.error (PyErr.keyError new_ref)
  | some i =>
      match p._stoichiometry with
      | .arr v =>
          match listAt v i with
          | Except.error e => Except.error e
          | Except.ok entry =>
              Except.ok { p with
                _stoichiometry := Stoich.arr (v.map (fun x => x.div entry.abs)) }
      | .lst v =>
          match listAt v i with
          | Except.error e => Except.error e
          | Except.ok entry =>
              Except.ok { p with
                _stoichiometry := Stoich.lst (v.map (fun x => sdiv x (sAbsE entry))) }

/-- Embedding of `Process._normalize_rate_eq(new_ref)`: multiplies the rate
expression by the coefficient currently stored at the reference species'
index (the value read here is the one already rewritten by
`_normalize_stoichiometry`, since the setter calls that first). -/
def _normalize_rate_eq (p : Process) (new_ref : String) :
    Except PyErr Process :=
  match p._components.index new_ref with
  | none => Except.error (PyErr.keyError new_ref)
  | some i =>
      match p._stoichiometry with
      | .arr v =>
          match listAt v i with
          | Except.error e => Except.error e
          | Except.ok f =>
              Except.ok { p with _rate_equation := smulPy p._rate_equation f }
      | .lst v =>
          match listAt v i with
          | Except.error e => Except.error e
          | Except.ok f =>
              Except.ok { p with _rate_equation := smulE p._rate_equation f }

/-- Embedding of the `ref_component` property setter: a falsy argument
(`None` or the empty string) skips the whole body; otherwise the name is
stored first, then the stoichiometry is normalized, then the rate equation
is rescaled.  (On an exception the Python object keeps the mutations made
before the raise; no settled claim depends on that partial state, so the
error branch drops it here.) -/
def set_ref_component (p : Process) (ref_cmp : Option String) :
    Except PyErr Process :=
  match ref_cmp with
  | none => Except.ok p
  | some s =>
      if s.isEmpty then Except.ok p
      else
        match _normalize_stoichiometry { p with _ref_component := s } s with
        | Except.error e => Except.error e
        | Except.ok p2 => _normalize_rate_eq p2 s

/-- Embedding of `Process.append_parameters(*new_pars)`: inserts a fresh
symbol for every given name into the parameter dict, silently overwriting
an existing entry — no collision check of any kind. -/
def append_parameters (p : Process) (new_pars : List String) : Process :=
  { p with _parameters :=
      new_pars.foldl (fun d n => dictInsert d n (SymExpr.sym n)) p._parameters }

/-- Modelled from the spec: sympy's `parse_expr` (external symbolic
collaborator, spec section 6, "parse a textual arithmetic/comparison
expression given a name-to-symbol substitution mapping").  It requires a
string: on `None` the tokenizer's `s.strip()` raises, and on the empty
string the compiled empty source raises `SyntaxError`.  The structure of a
successful parse is not inspected by any claim, so the result is
represented opaquely by its source text. -/
def parse_expr (s : Option String) (_local_dict : List (String × SymExpr)) :
    Except PyErr SymExpr :=
  match s with
  | none => Except.error (PyErr.typeError "parse_expr expects a string")
  | some str =>
      if str.isEmpty then Except.error (PyErr.syntaxError "unexpected EOF")
      else Except.ok (SymExpr.sym str)

/-- Modelled from the spec: `get_stoichiometric_coeff` lives in the repo
module `_parse`, which is not among the provided sources.  Per spec
sections 2 and 6 it returns a dense coefficient vector (fully numeric or
partially symbolic) aligned to catalog order; the vector it produced is
taken as an input of construction. -/
def get_stoichiometric_coeff (parsed : Stoich) : Stoich := parsed

/-- Embedding of `Process.__init__`: stores the catalog, reference name and
conserved tuple, builds the parameter dict by comprehension (iterating
`None` — the declared default — raises `TypeError`; duplicates silently
collapse), takes the parser's coefficient vector, and unconditionally
parses the rate-equation text (its declared default is also `None`). -/
def Process.construct (parsed : Stoich) (ref_component : String)
    (rate_equation : Option String) (components : Components)
    (conserved_for : List String) (parameters : Option (List String)) :
    Except PyErr Process := do
  let pars ← match parameters with
    | none => Except.error (PyErr.typeError "argument of type NoneType is not iterable")
    | some l => Except.ok (l.foldl (fun d n => dictInsert d n (SymExpr.sym n)) [])
  let stoich := get_stoichiometric_coeff parsed
  let locals := components.IDs.map (fun c => (c, SymExpr.sym c)) ++ pars
  let rate ← parse_expr rate_equation locals
  Except.ok { _stoichiometry := stoich, _components := components,
              _ref_component := ref_component, _conserved_for := conserved_for,
              _parameters := pars, _rate_equation := rate }

/-- Coefficient as it appears in the sparse `stoichiometry` view: a numpy
float from the `ndarray` case or a sympy expression from the `list` case. -/
inductive Coeff : Type where
  | pyF (x : PyFloat)
  | sE (e : SymExpr)
deriving DecidableEq, Repr

/-- Python truthiness of `v != 0` for a stored coefficient: false exactly
for the float `0.0` and sympy's exact zero (`nan`, `inf` and symbolic
expressions all compare unequal to 0). -/
def Coeff.neZero : Coeff → Bool
  | .pyF (.fin q) => decide (q ≠ 0)
  | .pyF _ => true
  | .sE (.num q) => decide (q ≠ 0)
  | .sE _ => true

/-- Dense coefficient list of a `Process`, tagged with its storage kind. -/
def denseCoeffs (p : Process) : List Coeff :=
  match p._stoichiometry with
  | .arr v => v.map Coeff.pyF
  | .lst v => v.map Coeff.sE

/-- Python `dict(zip(ks, vs))`: insertion-ordered dict built left to right
(duplicate keys keep the first position, last value). -/
def dictOfZip {α : Type} (ks : List String) (vs : List α) : List (String × α) :=
  (ks.zip vs).foldl (fun d kv => dictInsert d kv.1 kv.2) []

/-- Embedding of the `stoichiometry` read property:
`dict(zip(IDs, stoich))` filtered to the entries with `v != 0`. -/
def stoichiometry_view (p : Process) : List (String × Coeff) :=
  (dictOfZip p._components.IDs (denseCoeffs p)).filter (fun kv => kv.2.neZero)

/-- Shape of a sympy-produced expression relevant to negation: sympy never
leaves `Mul(-1, e)` unevaluated when `e` is a number, a special value or
itself such a product, so those heads do not occur in reachable state. -/
def SymExpr.canon : SymExpr → Bool
  | .neg (.num _) => false
  | .neg (.neg _) => false
  | .neg .soo => false
  | .neg .snoo => false
  | .neg .szoo => false
  | .neg .snan => false
  | _ => true

/-- Canonicity of a whole stored stoichiometry (numpy arrays carry plain
floats, so only the sympy list case constrains anything). -/
def Stoich.canonB : Stoich → Bool
  | .arr _ => true
  | .lst v => v.all (fun e => e.canon)

/-- Sample two-species catalog used by concrete instances below. -/
def sampleComps : Components :=
  { IDs := ["A", "B"], iRows := [("COD", [1, 1])] }

/-- Sample numeric process whose reference coefficient has magnitude 2:
exercises normalization with a non-unit factor. -/
def sampleC1P : Process :=
  { _stoichiometry := Stoich.arr [PyFloat.fin (-2), PyFloat.fin 4],
    _components := sampleComps,
    _ref_component := "B",
    _conserved_for := ["COD"],
    _parameters := [],
    _rate_equation := SymExpr.sym "r" }

/-- Sample numeric process with a zero coefficient for species `A`:
exercises reassignment of the reference to a zero-coefficient species. -/
def sampleC4P : Process :=
  { _stoichiometry := Stoich.arr [PyFloat.fin 0, PyFloat.fin 2],
    _components := sampleComps,
    _ref_component := "B",
    _conserved_for := ["COD"],
    _parameters := [],
    _rate_equation := SymExpr.sym "r" }

/-- Sample one-species process whose reference coefficient is already 1 and
which has one declared parameter. -/
def sampleUnitP : Process :=
  { _stoichiometry := Stoich.arr [PyFloat.fin 1],
    _components := { IDs := ["S_O2"], iRows := [("COD", [1])] },
    _ref_component := "S_O2",
    _conserved_for := ["COD"],
    _parameters := [("mu", SymExpr.sym "mu")],
    _rate_equation := SymExpr.sym "mu" }

/-- Sample partially symbolic process (list storage) with a symbolic entry. -/
def sampleSymP : Process :=
  { _stoichiometry := Stoich.lst [SymExpr.num 1, SymExpr.sym "x"],
    _components := sampleComps,
    _ref_component := "A",
    _conserved_for := ["COD"],
    _parameters := [("x", SymExpr.sym "x")],
    _rate_equation := SymExpr.sym "r" }

/-! Helper lemmas shared by several claim proofs. -/

theorem gcf_attr_error (p : Process) (b : Bool) :
    get_conversion_factors p b =
      Except.error (PyErr.attributeError "_conservation_for") := rfl

theorem pyNegNeg (x : PyFloat) : x.neg.neg = x := by
  cases x <;> simp [PyFloat.neg]

theorem snegSneg (e : SymExpr) (h : e.canon = true) : sneg (sneg e) = e := by
  cases e with
  | neg a =>
      cases a <;> simp [SymExpr.canon] at h <;> rfl
  | _ => simp [sneg]

theorem map_fix {α : Type} (f : α → α) :
    ∀ (l : List α), (∀ x ∈ l, f x = x) → l.map f = l := by
  intro l h
  induction l with
  | nil => rfl
  | cons a t ih =>
      simp only [List.map_cons, h a (List.mem_cons_self a t),
        ih (fun x hx => h x (List.mem_cons_of_mem a hx))]

theorem map_double {α : Type} (f g : α → α) :
    ∀ (l : List α), (∀ x ∈ l, f (g x) = x) → (l.map g).map f = l := by
  intro l h
  rw [List.map_map]
  exact map_fix (f ∘ g) l h

theorem pyDivOne (x : PyFloat) : x.div (PyFloat.fin 1) = x := by
  cases x <;> norm_num [PyFloat.div]

theorem sdivOne (x : SymExpr) : sdiv x (SymExpr.num 1) = x := by
  norm_num [sdiv]

/-- Behaviour of the `ref_component` setter on a numeric (ndarray)
stoichiometry along the successful path: the reference name is stored, the
vector is divided by the absolute value of the reference coefficient, and
the rate equation is multiplied by the value the division left at the
reference index. -/
theorem set_ref_arr (p : Process) (s : String) (v : List PyFloat) (i : Nat) (c : ℚ)
    (hs : s.isEmpty = false)
    (hst : p._stoichiometry = Stoich.arr v)
    (hidx : p._components.index s = some i)
    (hget : v[i]? = some (PyFloat.fin c)) :
    set_ref_component p (some s) =
      Except.ok
        { p with
          _ref_component := s,
          _stoichiometry := Stoich.arr (v.map (fun x => x.div (PyFloat.fin |c|))),
          _rate_equation :=
            smulPy p._rate_equation ((PyFloat.fin c).div (PyFloat.fin |c|)) } := by
  simp only [set_ref_component, hs, Bool.false_eq_true, if_false,
    _normalize_stoichiometry, _normalize_rate_eq, hidx, hst, listAt, hget,
    List.getElem?_map, PyFloat.abs]
  rfl

/-- Behaviour of the `ref_component` setter on a symbolic (list)
stoichiometry along the successful path. -/
theorem set_ref_lst (p : Process) (s : String) (v : List SymExpr) (i : Nat) (e : SymExpr)
    (hs : s.isEmpty = false)
    (hst : p._stoichiometry = Stoich.lst v)
    (hidx : p._components.index s = some i)
    (hget : v[i]? = some e) :
    set_ref_component p (some s) =
      Except.ok
        { p with
          _ref_component := s,
          _stoichiometry := Stoich.lst (v.map (fun x => sdiv x (sAbsE e))),
          _rate_equation := smulE p._rate_equation (sdiv e (sAbsE e)) } := by
  simp only [set_ref_component, hs, Bool.false_eq_true, if_false,
    _normalize_stoichiometry, _normalize_rate_eq, hidx, hst, listAt, hget,
    List.getElem?_map]
  rfl

theorem dictInsert_key_present {α : Type} (d : List (String × α)) (k : String) (v : α) :
    (dictInsert d k v).any (fun kv => kv.1 == k) = true := by
  by_cases h : d.any (fun kv => kv.1 == k) = true
  · simp only [dictInsert, h, if_true]
    rcases List.any_eq_true.mp h with ⟨kv, hmem, hkv⟩
    refine List.any_eq_true.mpr ⟨(k, v), List.mem_map.mpr ⟨kv, hmem, ?_⟩, by simp⟩
    simp [hkv]
  · simp only [dictInsert, h, if_false]
    simp

theorem dictInsert_length {α : Type} (d : List (String × α)) (k : String) (v : α) :
    (dictInsert d k v).length =
      if d.any (fun kv => kv.1 == k) then d.length else d.length + 1 := by
  by_cases h : d.any (fun kv => kv.1 == k) = true
  · simp [dictInsert, h]
  · simp [dictInsert, h]

/-! Claim theorems. -/

/-- C2: the claim says `get_conversion_factors(as_matrix=False)` stacks one
conversion-factor row per conserved quantity (and returns `None` for an
empty set).  The code instead reads the never-assigned attribute
`_conservation_for` (`__init__` assigns `_conserved_for`), so every call —
with either value of `as_matrix` and regardless of the process state —
raises `AttributeError` before anything is stacked. -/
theorem C2_get_conversion_factors_always_raises (p : Process) (as_matrix : Bool) :
    get_conversion_factors p as_matrix =
      Except.error (PyErr.attributeError "_conservation_for") :=
  gcf_attr_error p as_matrix

/-- C3: the claim says `check_conservation` raises the non-numeric error on
symbolic stoichiometries (which holds) and otherwise checks the dot
products against the tolerance.  On every fully numeric stoichiometry the
call instead dies with `AttributeError` inside `get_conversion_factors`
(the `_conservation_for` typo), so the dot-product check is unreachable. -/
theorem C3_check_conservation_dies_before_checking (p : Process) (tol : ℚ) :
    check_conservation p tol =
      (match p._stoichiometry with
       | Stoich.arr _ => Except.error (PyErr.attributeError "_conservation_for")
       | Stoich.lst _ => Except.error PyErr.runtimeNonNumeric) := by
  obtain ⟨st, c, r, cf, pars, rate⟩ := p
  cases st <;> rfl

/-- C10: assigning a falsy value (`None` or the empty string) to
`ref_component` is a silent no-op — the setter body is guarded by
`if ref_cmp:`, so no error is raised and the state is returned unchanged. -/
theorem C10_falsy_ref_assignment_noop (p : Process) :
    set_ref_component p none = Except.ok p ∧
    set_ref_component p (some "") = Except.ok p :=
  ⟨rfl, rfl⟩

/-- C7: the claim says construction with a `None` or empty rate-equation
text succeeds and leaves the rate unset.  The code has no such guard:
`_parse_rate_eq` unconditionally hands the text to sympy's `parse_expr`,
which raises on `None` (not a string) and on `""` (empty source), so
construction fails in both cases. -/
theorem C7_rateless_construction_raises (parsed : Stoich) (ref : String)
    (comps : Components) (cons : List String) (pars : List String) :
    Process.construct parsed ref none comps cons (some pars) =
      Except.error (PyErr.typeError "parse_expr expects a string") ∧
    Process.construct parsed ref (some "") comps cons (some pars) =
      Except.error (PyErr.syntaxError "unexpected EOF") :=
  ⟨rfl, rfl⟩

/-- C6 counterexample: the claim says a parameter-name collision with an
existing species or parameter fails with `DuplicateParameterError`.  Both
colliding calls complete normally: `append_parameters('S_O2')` on a process
whose catalog contains the species `S_O2` just appends the symbol, and a
constructor call with the duplicated parameter list `['k', 'k']` silently
collapses the duplicate. -/
theorem C6_counterexample_collisions_accepted :
    append_parameters sampleUnitP ["S_O2"] =
      { sampleUnitP with
        _parameters := [("mu", SymExpr.sym "mu"), ("S_O2", SymExpr.sym "S_O2")] } ∧
    Process.construct (Stoich.arr [PyFloat.fin 1]) "S_O2" (some "mu")
        { IDs := ["S_O2"], iRows := [("COD", [1])] } ["COD"] (some ["k", "k"]) =
      Except.ok
        { _stoichiometry := Stoich.arr [PyFloat.fin 1],
          _components := { IDs := ["S_O2"], iRows := [("COD", [1])] },
          _ref_component := "S_O2",
          _conserved_for := ["COD"],
          _parameters := [("k", SymExpr.sym "k")],
          _rate_equation := SymExpr.sym "mu" } :=
  ⟨rfl, rfl⟩

/-- C6 amended: no duplicate checking exists.  `append_parameters` always
succeeds: afterwards the name is a key of the parameter dict, and the dict
grows only when the name was not already a parameter (an existing entry is
silently overwritten in place); species-name collisions are not even
looked at. -/
theorem C6_amended_silent_insert_or_overwrite (p : Process) (nm : String) :
    (append_parameters p [nm])._parameters.any (fun kv => kv.1 == nm) = true ∧
    (append_parameters p [nm])._parameters.length =
      (if p._parameters.any (fun kv => kv.1 == nm) then p._parameters.length
       else p._parameters.length + 1) := by
  constructor
  · exact dictInsert_key_present p._parameters nm (SymExpr.sym nm)
  · exact dictInsert_length p._parameters nm (SymExpr.sym nm)

/-- C1 counterexample: on a process whose reference-to-be has signed
coefficient `c = -2`, reassigning `ref_component` divides the vector by
`|c| = 2` as claimed, but multiplies the rate equation by the *normalized*
coefficient `-1` read after the division — not by the unnormalized `c = -2`
captured before it, as the claim states. -/
theorem C1_counterexample_rate_not_scaled_by_unnormalized :
    (set_ref_component sampleC1P (some "A") =
      Except.ok
        { sampleC1P with
          _ref_component := "A",
          _stoichiometry := Stoich.arr [PyFloat.fin (-1), PyFloat.fin 2],
          _rate_equation := SymExpr.mul (SymExpr.num (-1)) (SymExpr.sym "r") }) ∧
    SymExpr.mul (SymExpr.num (-1)) (SymExpr.sym "r") ≠
      smulPy sampleC1P._rate_equation (PyFloat.fin (-2)) := by
  constructor
  · rw [set_ref_arr sampleC1P "A" [PyFloat.fin (-2), PyFloat.fin 4] 0 (-2)
      rfl rfl rfl rfl]
    norm_num [sampleC1P, PyFloat.div, PyFloat.abs, smulPy]
  · decide

/-- C1 amended: reassigning `ref_component` to a species with non-zero
signed coefficient `c` divides every stoichiometric coefficient by `|c|`
and multiplies the rate equation by the *normalized* signed coefficient
`c / |c|` (the sign of `c`, read from the vector after the division, since
the setter normalizes the stoichiometry first); afterwards the reference
coefficient is `c / |c|`, of magnitude exactly 1, so the sign relationship
between rate and stoichiometry is preserved. -/
theorem C1_amended_rate_scaled_by_sign (p : Process) (s : String)
    (v : List PyFloat) (i : Nat) (c : ℚ)
    (hs : s.isEmpty = false)
    (hst : p._stoichiometry = Stoich.arr v)
    (hidx : p._components.index s = some i)
    (hget : v[i]? = some (PyFloat.fin c))
    (hc : c ≠ 0) :
    (set_ref_component p (some s) =
      Except.ok
        { p with
          _ref_component := s,
          _stoichiometry := Stoich.arr (v.map (fun x => x.div (PyFloat.fin |c|))),
          _rate_equation := smulPy p._rate_equation (PyFloat.fin (c / |c|)) }) ∧
    (v.map (fun x => x.div (PyFloat.fin |c|)))[i]? = some (PyFloat.fin (c / |c|)) ∧
    abs (c / |c|) = 1 := by
  have habs : |c| ≠ 0 := abs_ne_zero.mpr hc
  have hdiv : (PyFloat.fin c).div (PyFloat.fin |c|) = PyFloat.fin (c / |c|) := by
    simp [PyFloat.div, habs]
  refine ⟨?_, ?_, ?_⟩
  · rw [set_ref_arr p s v i c hs hst hidx hget, hdiv]
  · simp [List.getElem?_map, hget, hdiv]
  · rw [abs_div, abs_abs, div_self habs]

/-- C1 amended, witness at `sampleC1P` with `c = -2`. -/
theorem C1_amended_witness :
    "A".isEmpty = false ∧ (-2 : ℚ) ≠ 0 ∧
    set_ref_component sampleC1P (some "A") =
      Except.ok
        { sampleC1P with
          _ref_component := "A",
          _stoichiometry :=
            Stoich.arr (List.map (fun x => x.div (PyFloat.fin |(-2 : ℚ)|))
              [PyFloat.fin (-2), PyFloat.fin 4]),
          _rate_equation :=
            smulPy sampleC1P._rate_equation (PyFloat.fin ((-2) / |(-2 : ℚ)|)) } :=
  ⟨rfl, by decide,
    (C1_amended_rate_scaled_by_sign sampleC1P "A" [PyFloat.fin (-2), PyFloat.fin 4]
      0 (-2) rfl rfl rfl rfl (by decide)).1⟩

/-- C4 counterexample: reassigning `ref_component` to species `A`, whose
coefficient is exactly 0, does not raise `ZeroReferenceCoefficientError`
(no such check exists): the call returns normally with the reference name
changed to `A`, the stoichiometry turned into `[nan, inf]` by the division
by zero, and the rate equation multiplied into `nan`. -/
theorem C4_counterexample_zero_reference_accepted :
    set_ref_component sampleC4P (some "A") =
      Except.ok
        { sampleC4P with
          _ref_component := "A",
          _stoichiometry := Stoich.arr [PyFloat.nan, PyFloat.inf],
          _rate_equation := SymExpr.snan } := by
  rw [set_ref_arr sampleC4P "A" [PyFloat.fin 0, PyFloat.fin 2] 0 0 rfl rfl rfl rfl]
  norm_num [PyFloat.div, smulPy]

/-- C4 amended: assigning `ref_component` to a species whose numeric
coefficient is exactly zero raises no error at all: the reference name is
updated, every coefficient is divided by the float zero (producing `nan`
at the reference index and non-finite values elsewhere), and the rate
equation is multiplied by the resulting `nan`. -/
theorem C4_amended_zero_reference_divides_by_zero (p : Process) (s : String)
    (v : List PyFloat) (i : Nat)
    (hs : s.isEmpty = false)
    (hst : p._stoichiometry = Stoich.arr v)
    (hidx : p._components.index s = some i)
    (hget : v[i]? = some (PyFloat.fin 0)) :
    set_ref_component p (some s) =
      Except.ok
        { p with
          _ref_component := s,
          _stoichiometry := Stoich.arr (v.map (fun x => x.div (PyFloat.fin 0))),
          _rate_equation := SymExpr.snan } := by
  have h := set_ref_arr p s v i 0 hs hst hidx hget
  simpa [PyFloat.div, smulPy] using h

/-- C4 amended, witness at `sampleC4P`. -/
theorem C4_amended_witness :
    "A".isEmpty = false ∧
    sampleC4P._components.index "A" = some 0 ∧
    set_ref_component sampleC4P (some "A") =
      Except.ok
        { sampleC4P with
          _ref_component := "A",
          _stoichiometry :=
            Stoich.arr (List.map (fun x => x.div (PyFloat.fin 0))
              [PyFloat.fin 0, PyFloat.fin 2]),
          _rate_equation := SymExpr.snan } :=
  ⟨rfl, rfl,
    C4_amended_zero_reference_divides_by_zero sampleC4P "A"
      [PyFloat.fin 0, PyFloat.fin 2] 0 rfl rfl rfl rfl⟩

/-- C5: calling `reverse` twice restores the stoichiometry and the rate
equation exactly: float negation is an involution, and sympy negation is an
involution on the canonical expressions sympy actually produces. -/
theorem C5_double_reverse_roundtrip (p : Process)
    (hrate : p._rate_equation.canon = true)
    (hst : p._stoichiometry.canonB = true) :
    p.reverse.reverse = p := by
  obtain ⟨st, comps, ref, cons, pars, rate⟩ := p
  cases st with
  | arr v =>
      simp only [Process.reverse]
      simp [map_double PyFloat.neg PyFloat.neg v (fun x _ => pyNegNeg x),
        snegSneg rate hrate]
  | lst v =>
      have hall : ∀ e ∈ v, sneg (sneg e) = e := by
        intro e he
        refine snegSneg e ?_
        simp only [Stoich.canonB, List.all_eq_true] at hst
        exact hst e he
      simp only [Process.reverse]
      simp [map_double sneg sneg v hall, snegSneg rate hrate]

/-- C5 witness at `sampleC1P` (numeric stoichiometry, symbolic rate). -/
theorem C5_witness :
    (sampleC1P._rate_equation.canon = true ∧
      sampleC1P._stoichiometry.canonB = true) ∧
    sampleC1P.reverse.reverse = sampleC1P :=
  ⟨⟨rfl, rfl⟩, C5_double_reverse_roundtrip sampleC1P rfl rfl⟩

/-- C9: reassigning `ref_component` to the species already serving as
reference leaves the stoichiometry unchanged.  A valid process has its
reference coefficient normalized to magnitude 1 (numeric `c` with
`|c| = 1`, stored as a float in the array case or as an exact sympy number
in the list case), so the setter divides by exactly 1. -/
theorem C9_same_reference_keeps_stoichiometry (p : Process) (i : Nat) (c : ℚ)
    (href : p._ref_component.isEmpty = false)
    (hidx : p._components.index p._ref_component = some i)
    (hmag : |c| = 1)
    (hentry :
      (∃ v, p._stoichiometry = Stoich.arr v ∧ v[i]? = some (PyFloat.fin c)) ∨
      (∃ v, p._stoichiometry = Stoich.lst v ∧ v[i]? = some (SymExpr.num c))) :
    ∃ p2, set_ref_component p (some p._ref_component) = Except.ok p2 ∧
      p2._stoichiometry = p._stoichiometry := by
  rcases hentry with ⟨v, hst, hget⟩ | ⟨v, hst, hget⟩
  · refine ⟨_, set_ref_arr p p._ref_component v i c href hst hidx hget, ?_⟩
    rw [hst]
    simp only [hmag]
    rw [map_fix (fun x => PyFloat.div x (PyFloat.fin 1)) v (fun x _ => pyDivOne x)]
  · refine ⟨_, set_ref_lst p p._ref_component v i (SymExpr.num c) href hst hidx hget, ?_⟩
    rw [hst]
    simp only [sAbsE, hmag]
    rw [map_fix (fun x => sdiv x (SymExpr.num 1)) v (fun x _ => sdivOne x)]

/-- C9 witness at `sampleUnitP` (reference coefficient `1`). -/
theorem C9_witness :
    sampleUnitP._ref_component.isEmpty = false ∧ |(1 : ℚ)| = 1 ∧
    (∃ p2, set_ref_component sampleUnitP (some sampleUnitP._ref_component) =
        Except.ok p2 ∧
      p2._stoichiometry = sampleUnitP._stoichiometry) :=
  ⟨rfl, by decide,
    C9_same_reference_keeps_stoichiometry sampleUnitP 0 1 rfl rfl (by decide)
      (Or.inl ⟨[PyFloat.fin 1], rfl, rfl⟩)⟩

theorem dictInsert_fresh {α : Type} (d : List (String × α)) (k : String) (v : α)
    (h : d.any (fun kv => kv.1 == k) = false) :
    dictInsert d k v = d ++ [(k, v)] := by
  simp [dictInsert, h]

theorem foldl_dictInsert_fresh {α : Type} :
    ∀ (pairs : List (String × α)) (d : List (String × α)),
      (pairs.map Prod.fst).Nodup →
      (∀ kv ∈ pairs, ∀ kv2 ∈ d, kv.1 ≠ kv2.1) →
      pairs.foldl (fun acc kv => dictInsert acc kv.1 kv.2) d = d ++ pairs := by
  intro pairs
  induction pairs with
  | nil => intro d _ _; simp
  | cons a t ih =>
      intro d hnd hfresh
      have hnd2 : (t.map Prod.fst).Nodup := (List.nodup_cons.mp (by simpa using hnd)).2
      have hhead : a.1 ∉ t.map Prod.fst := (List.nodup_cons.mp (by simpa using hnd)).1
      have hany : d.any (fun kv => kv.1 == a.1) = false := by
        rw [List.any_eq_false]
        intro kv hkv
        simp only [beq_iff_eq]
        exact fun heq => hfresh a (List.mem_cons_self a t) kv hkv heq.symm
      have hfresh2 : ∀ kv ∈ t, ∀ kv2 ∈ d ++ [a], kv.1 ≠ kv2.1 := by
        intro kv hkv kv2 hkv2
        rcases List.mem_append.mp hkv2 with h2 | h2
        · exact hfresh kv (List.mem_cons_of_mem a hkv) kv2 h2
        · have he : kv2 = a := by simpa using h2
          subst he
          exact fun heq => hhead (heq ▸ List.mem_map_of_mem Prod.fst hkv)
      calc (a :: t).foldl (fun acc kv => dictInsert acc kv.1 kv.2) d
          = t.foldl (fun acc kv => dictInsert acc kv.1 kv.2) (dictInsert d a.1 a.2) := by
            rw [List.foldl_cons]
        _ = t.foldl (fun acc kv => dictInsert acc kv.1 kv.2) (d ++ [a]) := by
            rw [dictInsert_fresh d a.1 a.2 hany]
        _ = (d ++ [a]) ++ t := ih (d ++ [a]) hnd2 hfresh2
        _ = d ++ a :: t := by simp

theorem dictOfZip_eq_zip {α : Type} (ks : List String) (vs : List α)
    (hnd : ks.Nodup) (hlen : vs.length = ks.length) :
    dictOfZip ks vs = ks.zip vs := by
  have hmap : (ks.zip vs).map Prod.fst = ks :=
    List.map_fst_zip ks vs (by omega)
  have h := foldl_dictInsert_fresh (ks.zip vs) []
    (by rw [hmap]; exact hnd) (by intro kv _ kv2 h2; cases h2)
  simpa [dictOfZip] using h

theorem count_eq_one_of_nodup_mem {α : Type} [BEq α] [LawfulBEq α]
    {l : List α} {a : α} (hnd : l.Nodup) (hm : a ∈ l) : l.count a = 1 := by
  induction l with
  | nil => cases hm
  | cons b t ih =>
      rcases List.mem_cons.mp hm with rfl | hm2
      · rw [List.count_cons_self]
        have hnotin : a ∉ t := (List.nodup_cons.mp hnd).1
        rw [List.count_eq_zero.mpr hnotin]
      · have hne : a ≠ b := by
          intro he
          exact (List.nodup_cons.mp hnd).1 (he ▸ hm2)
        rw [List.count_cons_of_ne hne]
        exact ih (List.nodup_cons.mp hnd).2 hm2

theorem stoichiometry_view_eq_filter_zip (p : Process)
    (hnd : p._components.IDs.Nodup)
    (hlen : (denseCoeffs p).length = p._components.IDs.length) :
    stoichiometry_view p =
      (p._components.IDs.zip (denseCoeffs p)).filter (fun kv => kv.2.neZero) := by
  rw [stoichiometry_view, dictOfZip_eq_zip _ _ hnd hlen]

/-- C8: the sparse `stoichiometry` view never contains an entry whose value
is exactly 0, and for every position of the dense vector holding a non-zero
coefficient the corresponding (species, coefficient) pair appears exactly
once in the view (species IDs are unique and the dense vector matches the
catalog length, the documented catalog invariants). -/
theorem C8_sparse_view_nonzero_and_complete (p : Process)
    (hnd : p._components.IDs.Nodup)
    (hlen : (denseCoeffs p).length = p._components.IDs.length) :
    (∀ kv ∈ stoichiometry_view p, kv.2.neZero = true) ∧
    (∀ i (hi : i < (denseCoeffs p).length),
      ((denseCoeffs p).get ⟨i, hi⟩).neZero = true →
      (stoichiometry_view p).count
        (p._components.IDs.get ⟨i, hlen ▸ hi⟩, (denseCoeffs p).get ⟨i, hi⟩) = 1) := by
  have hview := stoichiometry_view_eq_filter_zip p hnd hlen
  constructor
  · intro kv hkv
    rw [hview] at hkv
    exact (List.mem_filter.mp hkv).2
  · intro i hi hne
    rw [hview]
    have hilt : i < p._components.IDs.length := hlen ▸ hi
    have hzlen : i < (p._components.IDs.zip (denseCoeffs p)).length := by
      rw [List.length_zip]; omega
    have hpair : (p._components.IDs.zip (denseCoeffs p)).get ⟨i, hzlen⟩ =
        (p._components.IDs.get ⟨i, hilt⟩, (denseCoeffs p).get ⟨i, hi⟩) := by
      simp [List.get_eq_getElem, List.getElem_zip]
    have hmem : (p._components.IDs.get ⟨i, hilt⟩, (denseCoeffs p).get ⟨i, hi⟩) ∈
        p._components.IDs.zip (denseCoeffs p) := by
      rw [← hpair]; exact List.get_mem _ _ _
    have hznd : (p._components.IDs.zip (denseCoeffs p)).Nodup := by
      refine List.Nodup.of_map Prod.fst ?_
      rw [List.map_fst_zip _ _ (by omega)]
      exact hnd
    have hfmem : (p._components.IDs.get ⟨i, hilt⟩, (denseCoeffs p).get ⟨i, hi⟩) ∈
        (p._components.IDs.zip (denseCoeffs p)).filter (fun kv => kv.2.neZero) :=
      List.mem_filter.mpr ⟨hmem, hne⟩
    exact count_eq_one_of_nodup_mem (hznd.filter _) hfmem

/-- C8 witness at `sampleUnitP`. -/
theorem C8_witness :
    sampleUnitP._components.IDs.Nodup ∧
    (denseCoeffs sampleUnitP).length = sampleUnitP._components.IDs.length ∧
    (∀ kv ∈ stoichiometry_view sampleUnitP, kv.2.neZero = true) :=
  ⟨by decide, rfl,
    (C8_sparse_view_nonzero_and_complete sampleUnitP (by decide) rfl).1⟩
